import Mathlib

/-!
Shallow embedding of the ARM MHU mailbox driver
(`drivers/mailbox/arm_mhu.c`) and proofs about its channel-management
and message-transfer core.

The driver state is modelled explicitly: the memory-mapped control
window (doorbell status registers), the shared payload window, the
per-channel `data` slot (`struct mhu_chan.data`, the spec's
`pending_receive`), and the per-channel interrupt line.  Each driver
entry point (`mhu_send_data`, `mbox_handler`, `mhu_startup`,
`mhu_shutdown`, `mhu_last_tx_done`) is translated into a Lean function
on that state.  Besides the resulting state, each operation also
returns the list of externally visible effects it performed (memory
copies, register writes, client notification, irq management), in
program order, so that ordering and absence-of-side-effect properties
can be stated directly.
-/

namespace ArmMhu

/-- Register map, from the macros at arm_mhu.c:74-82.  In the C source
`RX_OFFSET(chan)` and `TX_OFFSET(chan)` expand the identifier `idx`
(not their argument); every use site has a local variable `idx` holding
the channel index, so the net addressing is a function of the channel
index, which is what is modelled here. -/
def RX_OFFSET (idx : Nat) : Nat := idx * 0x20

/-- Receive status register offset for a channel. -/
def RX_STATUS (idx : Nat) : Nat := RX_OFFSET idx

/-- Receive set register offset for a channel. -/
def RX_SET (idx : Nat) : Nat := RX_OFFSET idx + 0x8

/-- Receive clear register offset for a channel. -/
def RX_CLEAR (idx : Nat) : Nat := RX_OFFSET idx + 0x10

/-- Transmit block base offset for a channel (arm_mhu.c:79). -/
def TX_OFFSET (idx : Nat) : Nat := 0x100 + idx * 0x20

/-- Transmit status register offset for a channel. -/
def TX_STATUS (idx : Nat) : Nat := TX_OFFSET idx

/-- Transmit set register offset for a channel. -/
def TX_SET (idx : Nat) : Nat := TX_OFFSET idx + 0x8

/-- Transmit clear register offset for a channel. -/
def TX_CLEAR (idx : Nat) : Nat := TX_OFFSET idx + 0x10

/-- Maximum payload size per slot (arm_mhu.c:95). -/
def PAYLOAD_MAX_SIZE : Nat := 0x200

/-- Spacing between per-channel payload slots (arm_mhu.c:96). -/
def PAYLOAD_OFFSET : Nat := 0x400

/-- Receive payload slot offset for a channel (arm_mhu.c:97). -/
def RX_PAYLOAD (chan : Nat) : Nat := chan * PAYLOAD_OFFSET

/-- Transmit payload slot offset for a channel (arm_mhu.c:98). -/
def TX_PAYLOAD (chan : Nat) : Nat := chan * PAYLOAD_OFFSET + PAYLOAD_MAX_SIZE

/-- Modelled from the spec: `CHANNEL_MAX` is defined in `arm_mhu.h`,
which is not among the sources; the spec fixes exactly two priority
channels (low and high), and `mhu_probe` iterates over two channel
names. -/
def CHANNEL_MAX : Nat := 2

/-- Number of distinct values of a 32-bit register. -/
def U32_LIMIT : Nat := 4294967296

/-- Truncation of a value to 32 bits, as performed by a 32-bit register
write. -/
def truncate32 (v : Nat) : Nat := v % U32_LIMIT

/-- Bitwise complement of a value within 32 bits. -/
def u32compl (v : Nat) : Nat := Nat.xor 0xFFFFFFFF (truncate32 v)

/-- The memory-mapped hardware state visible to the driver: the control
window (indexed by byte offset; the meaningful cells sit at the STATUS
offsets) and the payload window (byte addressed). -/
structure Device where
  ctrl : Nat → Nat
  payload : Nat → Nat

/-- Read of a 32-bit control register, as `readl` in the source. -/
def readl (d : Device) (off : Nat) : Nat := d.ctrl off

/-- Write of a 32-bit control register, as `writel` in the source,
together with the doorbell semantics of the MHU register file described
in the spec: within each 0x20-stride register triple, the SET port
(offset 0x8 within the triple) OR-sets the written bits into the status
cell, and the CLEAR port (offset 0x10 within the triple) clears the
written bits from the status cell; writes elsewhere have no modelled
effect. -/
def writel (v off : Nat) (d : Device) : Device :=
  let statusOff := off - off % 0x20
  if off % 0x20 = 0x8 then
    { d with ctrl := fun a =>
        if a = statusOff then (d.ctrl a) ||| truncate32 v else d.ctrl a }
  else if off % 0x20 = 0x10 then
    { d with ctrl := fun a =>
        if a = statusOff then Nat.land (d.ctrl a) (u32compl v) else d.ctrl a }
  else d

/-- Result of `memcpy(mem + dst, src, n)` into a byte-addressed window:
the `n` bytes starting at `dst` now come from `src`, everything else is
unchanged. -/
def copyBytes (mem : Nat → Nat) (dst : Nat) (src : Nat → Nat) (n : Nat) :
    Nat → Nat :=
  fun a => if dst ≤ a ∧ a < dst + n then src (a - dst) else mem a

/-- Result of `memcpy(buf, mem + srcOff, n)` out of a byte-addressed
window into a client buffer: the first `n` bytes of the buffer now come
from the window, the rest of the buffer is unchanged. -/
def copyOut (buf : Nat → Nat) (mem : Nat → Nat) (srcOff n : Nat) :
    Nat → Nat :=
  fun i => if i < n then mem (srcOff + i) else buf i

/-- The message descriptor `struct mhu_data_buf` (declared in
`arm_mhu.h`).  Fields as used by the driver: the command word, the
optional transmit buffer with its size, and the optional receive
destination buffer with its declared size.  Buffers are modelled as
byte-addressed functions since the driver treats them as raw byte
pointers. -/
structure mhu_data_buf where
  cmd : Nat
  tx_buf : Option (Nat → Nat)
  tx_size : Nat
  rx_buf : Option (Nat → Nat)
  rx_size : Nat

/-- The driver-visible machine state: the device windows, the
per-channel `mhu_chan.data` slot (the spec's `pending_receive`), the
per-channel receive interrupt line, and whether the handler is
installed for a channel. -/
structure MhuState where
  dev : Device
  chanData : Nat → Option mhu_data_buf
  rxIrq : Nat → Nat
  irqInstalled : Nat → Bool

/-- Externally visible effects of a driver operation, recorded in
program order. -/
inductive MhuAction where
  | copyToPayload (off : Nat) (src : Nat → Nat) (n : Nat)
  | copyFromPayload (off : Nat) (n : Nat)
  | setChanData (idx : Nat) (d : Option mhu_data_buf)
  | notifyClient (d : mhu_data_buf)
  | writeReg (off : Nat) (v : Nat)
  | requestIrq (irq : Nat)
  | freeIrq (irq : Nat)

/-- Return value of `mbox_handler`. -/
inductive irqreturn where
  | IRQ_NONE
  | IRQ_HANDLED
deriving DecidableEq

/-- Result of `mhu_send_data`: the C return code, the new state, and
the effects performed. -/
structure SendResult where
  ret : Int
  st : MhuState
  tr : List MhuAction

/-- Result of `mbox_handler`: the irq return code, the new state, the
descriptor handed to the client by `mbox_chan_received_data` (if any),
and the effects performed. -/
structure IrqResult where
  ret : irqreturn
  st : MhuState
  delivered : Option mhu_data_buf
  tr : List MhuAction

/-- Result of `mhu_startup`. -/
structure StartResult where
  ret : Int
  st : MhuState
  tr : List MhuAction

/-- Result of `mhu_shutdown` (void in C: it cannot fail). -/
structure StopResult where
  st : MhuState
  tr : List MhuAction

/-- The C error code EINVAL; `mhu_send_data` returns `-EINVAL`. -/
def EINVAL : Int := 22

/-- Translation of `mhu_send_data` (arm_mhu.c:140-158).  A null `msg`
is rejected with `-EINVAL` and nothing else happens.  Otherwise the
descriptor is stored in `chan->data`, then, if a transmit buffer is
present, `tx_size` bytes are copied into the transmit payload slot, and
finally the command word is written to the transmit set register.
Note: the function performs no check of `tx_size` against
`PAYLOAD_MAX_SIZE`.  It is a straight-line function: it returns without
any blocking or waiting. -/
def mhu_send_data (st : MhuState) (idx : Nat) (msg : Option mhu_data_buf) :
    SendResult :=
  match msg with
  | none => { ret := -EINVAL, st := st, tr := [] }
  | some data =>
    let st1 : MhuState :=
      { st with chanData := fun j => if j = idx then some data else st.chanData j }
    match data.tx_buf with
    | some buf =>
      let st2 : MhuState :=
        { st1 with dev :=
          { st1.dev with payload := (copyBytes st1.dev.payload
              (TX_PAYLOAD idx) buf data.tx_size) } }
      { ret := 0,
        st := { st2 with dev := writel data.cmd (TX_SET idx) st2.dev },
        tr := [MhuAction.setChanData idx (some data),
               MhuAction.copyToPayload (TX_PAYLOAD idx) buf data.tx_size,
               MhuAction.writeReg (TX_SET idx) data.cmd] }
    | none =>
      { ret := 0,
        st := { st1 with dev := writel data.cmd (TX_SET idx) st1.dev },
        tr := [MhuAction.setChanData idx (some data),
               MhuAction.writeReg (TX_SET idx) data.cmd] }

/-- Translation of `mbox_handler` (arm_mhu.c:115-138).  Reads the
receive status register; if it is non-zero and the firing interrupt
line is this channel's, an empty `chan->data` means the event is
spurious for this channel and `IRQ_NONE` is returned with no effect.
Otherwise, if the descriptor has a receive buffer, `rx_size` bytes are
copied from the receive payload slot into it; `chan->data` is cleared;
the client is notified with the descriptor; and all bits of the receive
status register are cleared by writing all-ones to the clear register.
In all remaining cases (status zero, or a non-matching line) the
handler does nothing and returns `IRQ_HANDLED`. -/
def mbox_handler (st : MhuState) (irq idx : Nat) : IrqResult :=
  if readl st.dev (RX_STATUS idx) ≠ 0 ∧ irq = st.rxIrq idx then
    match st.chanData idx with
    | none =>
      { ret := irqreturn.IRQ_NONE, st := st, delivered := none, tr := [] }
    | some data =>
      let data1 : mhu_data_buf :=
        match data.rx_buf with
        | some buf =>
          { data with rx_buf := (some (copyOut buf st.dev.payload
              (RX_PAYLOAD idx) data.rx_size)) }
        | none => data
      let copyTr : List MhuAction :=
        match data.rx_buf with
        | some _ => [MhuAction.copyFromPayload (RX_PAYLOAD idx) data.rx_size]
        | none => []
      let st1 : MhuState :=
        { st with chanData := fun j => if j = idx then none else st.chanData j }
      { ret := irqreturn.IRQ_HANDLED,
        st := { st1 with dev := writel 0xFFFFFFFF (RX_CLEAR idx) st1.dev },
        delivered := some data1,
        tr := copyTr ++
              [MhuAction.setChanData idx none,
               MhuAction.notifyClient data1,
               MhuAction.writeReg (RX_CLEAR idx) 0xFFFFFFFF] }
  else
    { ret := irqreturn.IRQ_HANDLED, st := st, delivered := none, tr := [] }

/-- Translation of `mhu_startup` (arm_mhu.c:160-168).  It requests the
channel's receive interrupt line and returns the platform's answer
`err`; the handler is installed exactly when the request succeeds
(`err = 0`). -/
def mhu_startup (st : MhuState) (idx : Nat) (err : Int) : StartResult :=
  if err = 0 then
    { ret := 0,
      st := { st with irqInstalled := fun j =>
                if j = idx then true else st.irqInstalled j },
      tr := [MhuAction.requestIrq (st.rxIrq idx)] }
  else
    { ret := err, st := st, tr := [MhuAction.requestIrq (st.rxIrq idx)] }

/-- Translation of `mhu_shutdown` (arm_mhu.c:170-176).  It clears
`chan->data` and frees the channel's interrupt line; it is void in C
and always succeeds.  No data is copied. -/
def mhu_shutdown (st : MhuState) (idx : Nat) : StopResult :=
  { st := { st with
      chanData := fun j => if j = idx then none else st.chanData j,
      irqInstalled := fun j => if j = idx then false else st.irqInstalled j },
    tr := [MhuAction.setChanData idx none,
           MhuAction.freeIrq (st.rxIrq idx)] }

/-- Translation of `mhu_last_tx_done` (arm_mhu.c:178-186): a pure read
of the transmit status register, true exactly when it reads zero.  It
is a function of the state that performs no write. -/
def mhu_last_tx_done (st : MhuState) (idx : Nat) : Bool :=
  readl st.dev (TX_STATUS idx) == 0

/-- The driver operations on one channel, for stating the single-writer
characterisation of the `pending_receive` slot. -/
inductive MhuOp where
  | send (msg : Option mhu_data_buf)
  | interrupt (irq : Nat)
  | startup (err : Int)
  | shutdown
  | lastTxDone

/-- State reached by running one driver operation on channel `idx`. -/
def stepState (st : MhuState) (idx : Nat) : MhuOp → MhuState
  | MhuOp.send msg => (mhu_send_data st idx msg).st
  | MhuOp.interrupt irq => (mbox_handler st irq idx).st
  | MhuOp.startup err => (mhu_startup st idx err).st
  | MhuOp.shutdown => (mhu_shutdown st idx).st
  | MhuOp.lastTxDone => st

/-- A freshly constructed controller in the same hardware environment
as `st` (same device windows and interrupt wiring), with every
`chan->data` slot zeroed as `devm_kzalloc` leaves it in `mhu_probe`,
and in which only channel `idx` has been started. -/
def freshStarted (st : MhuState) (idx : Nat) : MhuState :=
  { st with chanData := fun _ => none,
            irqInstalled := fun j => j == idx }

/-- Client-observable outcome of one Send followed by one interrupt
delivery on a channel: the send return code, the handler return code,
the descriptor delivered to the client, and the combined effect
trace. -/
def cycleObs (st : MhuState) (idx irq : Nat) (msg : Option mhu_data_buf) :
    Int × irqreturn × Option mhu_data_buf × List MhuAction :=
  let s := mhu_send_data st idx msg
  let h := mbox_handler s.st irq idx
  (s.ret, h.ret, h.delivered, s.tr ++ h.tr)

/-- Disjointness of two byte regions of size `PAYLOAD_MAX_SIZE`. -/
def regionsDisjoint (a b : Nat) : Prop :=
  a + PAYLOAD_MAX_SIZE ≤ b ∨ b + PAYLOAD_MAX_SIZE ≤ a

/-- A concrete quiescent state: all registers zero, payload window
zero, no pending descriptor, channel `j` wired to line `40 + j`. -/
def st0 : MhuState :=
  { dev := { ctrl := fun _ => 0, payload := fun _ => 0 },
    chanData := fun _ => none,
    rxIrq := fun j => 40 + j,
    irqInstalled := fun _ => false }

/-- A concrete oversized descriptor: payload of 0x201 bytes, one more
than `PAYLOAD_MAX_SIZE`. -/
def oversized : mhu_data_buf :=
  { cmd := 1, tx_buf := some (fun _ => 0xAB), tx_size := 0x201,
    rx_buf := none, rx_size := 0 }

/-- A concrete notify-only descriptor whose command word is zero. -/
def cmd0 : mhu_data_buf :=
  { cmd := 0, tx_buf := none, tx_size := 0, rx_buf := none, rx_size := 0 }

/-- A concrete all-zero 4-byte destination buffer. -/
def rxdBuf : Nat → Nat := fun _ => 0

/-- A concrete receive descriptor with a 4-byte destination buffer. -/
def rxd : mhu_data_buf :=
  { cmd := 0, tx_buf := none, tx_size := 0,
    rx_buf := some rxdBuf, rx_size := 4 }

/-- A concrete 4-byte transmit buffer. -/
def txdBuf : Nat → Nat := fun i => i + 1

/-- A concrete in-bounds transmit descriptor. -/
def txd : mhu_data_buf :=
  { cmd := 5, tx_buf := some txdBuf, tx_size := 4,
    rx_buf := none, rx_size := 0 }

/-- A concrete state whose channel-0 receive doorbell is rung while no
descriptor is pending on any channel. -/
def stRung : MhuState :=
  { st0 with dev := { ctrl := fun a => if a = RX_STATUS 0 then 4 else 0,
                      payload := fun _ => 9 } }

/-- A concrete state in which channel 0 is armed with `rxd` and its
receive doorbell is rung (status reads 1), with 4 recognisable bytes in
the channel-0 receive payload slot. -/
def stArmed : MhuState :=
  { dev := { ctrl := fun a => if a = RX_STATUS 0 then 1 else 0,
             payload := fun i => 0xD0 + i },
    chanData := fun j => if j = 0 then some rxd else none,
    rxIrq := fun j => 40 + j,
    irqInstalled := fun _ => true }

set_option maxRecDepth 8000

/-!  Helper lemmas about the register-write semantics.  -/

theorem writel_payload (v off : Nat) (d : Device) :
    (writel v off d).payload = d.payload := by
  unfold writel
  split
  · rfl
  · split <;> rfl

theorem u32compl_allones : u32compl 0xFFFFFFFF = 0 := by decide

theorem writel_tx_set (v idx : Nat) (d : Device) :
    writel v (TX_SET idx) d =
      { d with ctrl := fun a =>
          if a = TX_STATUS idx then d.ctrl a ||| truncate32 v else d.ctrl a } := by
  have h1 : TX_SET idx % 0x20 = 0x8 := by
    simp only [TX_SET, TX_OFFSET]; omega
  have h2 : TX_SET idx - TX_SET idx % 0x20 = TX_STATUS idx := by
    simp only [TX_SET, TX_STATUS, TX_OFFSET]; omega
  unfold writel
  rw [h2, h1]
  simp

theorem writel_rx_clear (v idx : Nat) (d : Device) :
    writel v (RX_CLEAR idx) d =
      { d with ctrl := fun a =>
          if a = RX_STATUS idx then Nat.land (d.ctrl a) (u32compl v) else d.ctrl a } := by
  have h1 : RX_CLEAR idx % 0x20 = 0x10 := by
    simp only [RX_CLEAR, RX_OFFSET]; omega
  have h2 : RX_CLEAR idx - RX_CLEAR idx % 0x20 = RX_STATUS idx := by
    simp only [RX_CLEAR, RX_STATUS, RX_OFFSET]; omega
  unfold writel
  rw [h2, h1]
  simp

theorem land_zero (n : Nat) : Nat.land n 0 = 0 := by simp [Nat.land]

theorem writel_rx_clear_allones (idx : Nat) (d : Device) :
    (writel 0xFFFFFFFF (RX_CLEAR idx) d).ctrl (RX_STATUS idx) = 0 := by
  rw [writel_rx_clear, u32compl_allones]
  simp [land_zero]

theorem tx_status_ne_rx_status (idx : Nat) : TX_STATUS idx ≠ RX_STATUS idx := by
  simp only [TX_STATUS, TX_OFFSET, RX_STATUS, RX_OFFSET]
  omega

theorem lor_ne_zero_right (x y : Nat) (h : y ≠ 0) : x ||| y ≠ 0 := by
  intro hc
  apply h
  rcases Nat.exists_most_significant_bit h with ⟨i, hi, _⟩
  have h2 := congrArg (fun n => Nat.testBit n i) hc
  simp [Nat.testBit_lor, hi] at h2

/-- C7: for every valid channel index the receive payload slot sits at
`ch * 0x400` and the transmit slot at `ch * 0x400 + 0x200`; the receive
slot plus the maximum payload size reaches at most the transmit slot,
and the payload regions (each of size `PAYLOAD_MAX_SIZE`) of distinct
channels never overlap. -/
theorem payload_slots_disjoint (ch ch2 : Nat)
    (hch : ch < CHANNEL_MAX) (hch2 : ch2 < CHANNEL_MAX) (hne : ch ≠ ch2) :
    RX_PAYLOAD ch = ch * 0x400 ∧
    TX_PAYLOAD ch = ch * 0x400 + 0x200 ∧
    RX_PAYLOAD ch + PAYLOAD_MAX_SIZE ≤ TX_PAYLOAD ch ∧
    regionsDisjoint (RX_PAYLOAD ch) (RX_PAYLOAD ch2) ∧
    regionsDisjoint (RX_PAYLOAD ch) (TX_PAYLOAD ch2) ∧
    regionsDisjoint (TX_PAYLOAD ch) (RX_PAYLOAD ch2) ∧
    regionsDisjoint (TX_PAYLOAD ch) (TX_PAYLOAD ch2) := by
  refine ⟨?_, ?_, ?_, ?_, ?_, ?_, ?_⟩ <;>
    simp only [RX_PAYLOAD, TX_PAYLOAD, PAYLOAD_OFFSET, PAYLOAD_MAX_SIZE,
      regionsDisjoint, CHANNEL_MAX] at * <;>
    omega

/-- Witness for C7 at the two concrete channels 0 and 1. -/
theorem payload_slots_disjoint_w :
    0 < CHANNEL_MAX ∧ 1 < CHANNEL_MAX ∧
    (RX_PAYLOAD 0 = 0 ∧ TX_PAYLOAD 0 = 0x200 ∧
     RX_PAYLOAD 0 + PAYLOAD_MAX_SIZE ≤ TX_PAYLOAD 0 ∧
     regionsDisjoint (RX_PAYLOAD 0) (RX_PAYLOAD 1) ∧
     regionsDisjoint (RX_PAYLOAD 0) (TX_PAYLOAD 1) ∧
     regionsDisjoint (TX_PAYLOAD 0) (RX_PAYLOAD 1) ∧
     regionsDisjoint (TX_PAYLOAD 0) (TX_PAYLOAD 1)) :=
  ⟨by decide, by decide,
   by simpa using payload_slots_disjoint 0 1 (by decide) (by decide) (by decide)⟩

/-- C8: control-window offsets: receive status at `0x20 * ch`, transmit
status at `0x100 + 0x20 * ch`, and in each direction the set register
at `status + 0x8` and the clear register at `status + 0x10`; every
receive register of a valid channel lies strictly below offset 0x100,
where the transmit block starts, so the two blocks never overlap for
the two channels. -/
theorem control_block_layout (ch : Nat) (hch : ch < CHANNEL_MAX) :
    RX_STATUS ch = 0x20 * ch ∧
    TX_STATUS ch = 0x100 + 0x20 * ch ∧
    RX_SET ch = RX_STATUS ch + 0x8 ∧
    RX_CLEAR ch = RX_STATUS ch + 0x10 ∧
    TX_SET ch = TX_STATUS ch + 0x8 ∧
    TX_CLEAR ch = TX_STATUS ch + 0x10 ∧
    (∀ ch2, ch2 < CHANNEL_MAX → RX_CLEAR ch + 4 ≤ 0x100 ∧ 0x100 ≤ TX_STATUS ch2) := by
  refine ⟨?_, ?_, ?_, ?_, ?_, ?_, fun ch2 h2 => ⟨?_, ?_⟩⟩ <;>
    simp only [RX_STATUS, RX_SET, RX_CLEAR, RX_OFFSET,
      TX_STATUS, TX_SET, TX_CLEAR, TX_OFFSET, CHANNEL_MAX] at * <;>
    omega

/-- Witness for C8 at concrete channel 1. -/
theorem control_block_layout_w :
    1 < CHANNEL_MAX ∧
    (RX_STATUS 1 = 0x20 ∧ TX_STATUS 1 = 0x120 ∧
     RX_SET 1 = RX_STATUS 1 + 0x8 ∧ RX_CLEAR 1 = RX_STATUS 1 + 0x10 ∧
     TX_SET 1 = TX_STATUS 1 + 0x8 ∧ TX_CLEAR 1 = TX_STATUS 1 + 0x10 ∧
     (∀ ch2, ch2 < CHANNEL_MAX → RX_CLEAR 1 + 4 ≤ 0x100 ∧ 0x100 ≤ TX_STATUS ch2)) :=
  ⟨by decide, by simpa using control_block_layout 1 (by decide)⟩

/-- C5: for every state, channel, and non-null descriptor with a
payload buffer present and `tx_size` at most `PAYLOAD_MAX_SIZE`, Send
returns 0, stores the descriptor, and copies exactly `tx_size` bytes
from the client buffer into the transmit payload slot strictly before
writing the command word to the transmit set register (the effect trace
lists the copy before the register write); an immediate read of the
transmit payload slot reproduces the original bytes exactly.  Send is a
straight-line, non-blocking function.  A null descriptor is rejected
with `-EINVAL` and nothing happens. -/
theorem send_copies_then_rings (st : MhuState) (idx : Nat)
    (d : mhu_data_buf) (buf : Nat → Nat)
    (hbuf : d.tx_buf = some buf) (hsize : d.tx_size ≤ PAYLOAD_MAX_SIZE) :
    (mhu_send_data st idx (some d)).ret = 0 ∧
    (mhu_send_data st idx (some d)).tr =
      [MhuAction.setChanData idx (some d),
       MhuAction.copyToPayload (TX_PAYLOAD idx) buf d.tx_size,
       MhuAction.writeReg (TX_SET idx) d.cmd] ∧
    (∀ i, i < d.tx_size →
      (mhu_send_data st idx (some d)).st.dev.payload (TX_PAYLOAD idx + i) = buf i) ∧
    (mhu_send_data st idx none).ret = -EINVAL ∧
    (mhu_send_data st idx none).st = st ∧
    (mhu_send_data st idx none).tr = [] := by
  refine ⟨?_, ?_, ?_, rfl, rfl, rfl⟩
  · simp [mhu_send_data, hbuf]
  · simp [mhu_send_data, hbuf]
  · intro i hi
    simp only [mhu_send_data, hbuf]
    rw [writel_payload]
    simp only [copyBytes]
    have hcond : TX_PAYLOAD idx ≤ TX_PAYLOAD idx + i ∧
        TX_PAYLOAD idx + i < TX_PAYLOAD idx + d.tx_size := ⟨Nat.le_add_right _ _, by omega⟩
    rw [if_pos hcond]
    congr 1
    omega

/-- Witness for C5: sending `txd` on channel 0 of the quiescent state;
byte 2 of the transmit payload slot afterwards reads `txdBuf 2`. -/
theorem send_copies_then_rings_w :
    txd.tx_buf = some txdBuf ∧ txd.tx_size ≤ PAYLOAD_MAX_SIZE ∧
    (mhu_send_data st0 0 (some txd)).ret = 0 ∧
    (mhu_send_data st0 0 (some txd)).st.dev.payload (TX_PAYLOAD 0 + 2) = txdBuf 2 :=
  ⟨rfl, by decide,
   (send_copies_then_rings st0 0 txd txdBuf rfl (by decide)).1,
   (send_copies_then_rings st0 0 txd txdBuf rfl (by decide)).2.2.1 2 (by decide)⟩

/-- C1 counterexample: `mhu_send_data` contains no size check.  On the
concrete descriptor `oversized`, whose `tx_size` of 0x201 exceeds
`PAYLOAD_MAX_SIZE`, Send returns 0 rather than `-EINVAL`, performs the
memory copy and the doorbell register write, and the copy even lands a
byte one past the end of the 0x200-byte transmit slot of channel 0. -/
theorem send_oversized_accepted :
    PAYLOAD_MAX_SIZE < oversized.tx_size ∧
    (mhu_send_data st0 0 (some oversized)).ret = 0 ∧
    (mhu_send_data st0 0 (some oversized)).ret ≠ -EINVAL ∧
    (mhu_send_data st0 0 (some oversized)).tr =
      [MhuAction.setChanData 0 (some oversized),
       MhuAction.copyToPayload (TX_PAYLOAD 0) (fun _ => 0xAB) 0x201,
       MhuAction.writeReg (TX_SET 0) 1] ∧
    (mhu_send_data st0 0 (some oversized)).st.dev.payload (TX_PAYLOAD 0 + 0x200) = 0xAB := by
  refine ⟨by decide, rfl, by decide, rfl, ?_⟩
  simp only [mhu_send_data, oversized, st0]
  rw [writel_payload]
  simp [copyBytes]

/-- C1 amended: Send rejects only a null descriptor (with `-EINVAL` and
no side effect); it performs no payload-size validation, so for every
non-null descriptor with a payload buffer, whatever its `tx_size`, it
returns 0, stores the descriptor, copies `tx_size` bytes into the
transmit payload region, and writes the command word to the transmit
set register. -/
theorem send_checks_only_null (st : MhuState) (idx : Nat)
    (d : mhu_data_buf) (buf : Nat → Nat) (hbuf : d.tx_buf = some buf) :
    (mhu_send_data st idx (some d)).ret = 0 ∧
    (mhu_send_data st idx (some d)).st.chanData idx = some d ∧
    (mhu_send_data st idx (some d)).tr =
      [MhuAction.setChanData idx (some d),
       MhuAction.copyToPayload (TX_PAYLOAD idx) buf d.tx_size,
       MhuAction.writeReg (TX_SET idx) d.cmd] ∧
    (mhu_send_data st idx none).ret = -EINVAL ∧
    (mhu_send_data st idx none).st = st ∧
    (mhu_send_data st idx none).tr = [] := by
  refine ⟨?_, ?_, ?_, rfl, rfl, rfl⟩ <;> simp [mhu_send_data, hbuf]

/-- Witness for C1 amended, at the oversized descriptor. -/
theorem send_checks_only_null_w :
    oversized.tx_buf = some (fun _ => 0xAB) ∧
    (mhu_send_data st0 0 (some oversized)).ret = 0 ∧
    (mhu_send_data st0 0 (some oversized)).st.chanData 0 = some oversized :=
  ⟨rfl,
   (send_checks_only_null st0 0 oversized (fun _ => 0xAB) rfl).1,
   (send_checks_only_null st0 0 oversized (fun _ => 0xAB) rfl).2.1⟩

/-- C3: when a channel's `pending_receive` holds a descriptor with a
destination buffer, interrupt delivery on the matching line with a
non-zero receive status copies `rx_size` bytes (the destination's
declared size, which bounds the amount copied) from the receive payload
slot into the destination buffer, empties `pending_receive`, notifies
the client with ownership of the filled descriptor, and clears the
receive-status bits of that channel, in exactly that order (as the
effect trace shows). -/
theorem interrupt_delivers_payload (st : MhuState) (irq idx : Nat)
    (d : mhu_data_buf) (buf : Nat → Nat)
    (hstatus : readl st.dev (RX_STATUS idx) ≠ 0)
    (hirq : irq = st.rxIrq idx)
    (hdata : st.chanData idx = some d)
    (hbuf : d.rx_buf = some buf) :
    (mbox_handler st irq idx).ret = irqreturn.IRQ_HANDLED ∧
    (mbox_handler st irq idx).tr =
      [MhuAction.copyFromPayload (RX_PAYLOAD idx) d.rx_size,
       MhuAction.setChanData idx none,
       MhuAction.notifyClient
         { d with rx_buf := (some (copyOut buf st.dev.payload
             (RX_PAYLOAD idx) d.rx_size)) },
       MhuAction.writeReg (RX_CLEAR idx) 0xFFFFFFFF] ∧
    (mbox_handler st irq idx).delivered =
      some { d with rx_buf := (some (copyOut buf st.dev.payload
               (RX_PAYLOAD idx) d.rx_size)) } ∧
    (∀ i, i < d.rx_size →
      copyOut buf st.dev.payload (RX_PAYLOAD idx) d.rx_size i =
        st.dev.payload (RX_PAYLOAD idx + i)) ∧
    (mbox_handler st irq idx).st.chanData idx = none ∧
    readl (mbox_handler st irq idx).st.dev (RX_STATUS idx) = 0 := by
  have hc : readl st.dev (RX_STATUS idx) ≠ 0 ∧ irq = st.rxIrq idx := ⟨hstatus, hirq⟩
  unfold mbox_handler
  rw [if_pos hc, hdata]
  refine ⟨rfl, by simp [hbuf], by simp [hbuf], ?_, by simp, ?_⟩
  · intro i hi
    simp [copyOut, hi]
  · exact writel_rx_clear_allones idx _

/-- Witness for C3: delivery on the armed concrete state `stArmed`;
the receive slot is emptied, the status cleared, and byte 2 of the
filled buffer equals byte 2 of the receive payload slot. -/
theorem interrupt_delivers_payload_w :
    readl stArmed.dev (RX_STATUS 0) ≠ 0 ∧
    stArmed.chanData 0 = some rxd ∧
    rxd.rx_buf = some rxdBuf ∧
    (mbox_handler stArmed 40 0).st.chanData 0 = none ∧
    readl (mbox_handler stArmed 40 0).st.dev (RX_STATUS 0) = 0 ∧
    copyOut rxdBuf stArmed.dev.payload (RX_PAYLOAD 0) rxd.rx_size 2 =
      stArmed.dev.payload (RX_PAYLOAD 0 + 2) :=
  ⟨by decide, rfl, rfl,
   (interrupt_delivers_payload stArmed 40 0 rxd rxdBuf (by decide) rfl rfl rfl).2.2.2.2.1,
   (interrupt_delivers_payload stArmed 40 0 rxd rxdBuf (by decide) rfl rfl rfl).2.2.2.2.2,
   (interrupt_delivers_payload stArmed 40 0 rxd rxdBuf (by decide) rfl rfl rfl).2.2.2.1 2
     (by decide)⟩

/-- C4: an interrupt event (non-zero receive status on the channel's
own line) arriving while `pending_receive` is empty performs no copy,
does not clear the receive doorbell, mutates no state at all, and
reports `IRQ_NONE`, so a shared line can be attributed to another
channel or source. -/
theorem spurious_interrupt_unhandled (st : MhuState) (irq idx : Nat)
    (hstatus : readl st.dev (RX_STATUS idx) ≠ 0)
    (hirq : irq = st.rxIrq idx)
    (hdata : st.chanData idx = none) :
    (mbox_handler st irq idx).ret = irqreturn.IRQ_NONE ∧
    (mbox_handler st irq idx).st = st ∧
    (mbox_handler st irq idx).delivered = none ∧
    (mbox_handler st irq idx).tr = [] := by
  have hc : readl st.dev (RX_STATUS idx) ≠ 0 ∧ irq = st.rxIrq idx := ⟨hstatus, hirq⟩
  unfold mbox_handler
  rw [if_pos hc, hdata]
  exact ⟨rfl, rfl, rfl, rfl⟩

/-- Witness for C4 on the concrete rung-but-unarmed state `stRung`:
the handler reports `IRQ_NONE`, leaves the state untouched (in
particular the doorbell still reads 4), and performs no action. -/
theorem spurious_interrupt_unhandled_w :
    readl stRung.dev (RX_STATUS 0) ≠ 0 ∧
    stRung.chanData 0 = none ∧
    (mbox_handler stRung 40 0).ret = irqreturn.IRQ_NONE ∧
    (mbox_handler stRung 40 0).st = stRung ∧
    (mbox_handler stRung 40 0).tr = [] ∧
    readl (mbox_handler stRung 40 0).st.dev (RX_STATUS 0) = 4 :=
  ⟨by decide, rfl,
   (spurious_interrupt_unhandled stRung 40 0 (by decide) rfl rfl).1,
   (spurious_interrupt_unhandled stRung 40 0 (by decide) rfl rfl).2.1,
   (spurious_interrupt_unhandled stRung 40 0 (by decide) rfl rfl).2.2.2,
   by rw [(spurious_interrupt_unhandled stRung 40 0 (by decide) rfl rfl).2.1]; decide⟩

/-- C6 counterexample: the transmit set register OR-sets the written
bits, so a successful Send whose command word is zero sets no
transmit-status bit; on the quiescent state `mhu_last_tx_done` still
returns true immediately after such a Send, contradicting the claim
that it returns false immediately after a Send. -/
theorem last_tx_done_true_after_send :
    (mhu_send_data st0 0 (some cmd0)).ret = 0 ∧
    mhu_last_tx_done (mhu_send_data st0 0 (some cmd0)).st 0 = true := by
  exact ⟨rfl, by decide⟩

/-- C6 amended: `mhu_last_tx_done` returns true iff the transmit status
register of the channel reads zero; it is a pure poll (a function of
the state returning only a Bool: it writes nothing and cannot block);
it returns false immediately after a Send whose 32-bit command word is
non-zero, and returns true in any state in which the peer has cleared
the transmit-status bits of the channel. -/
theorem last_tx_done_spec (st : MhuState) (idx : Nat) (d : mhu_data_buf)
    (hcmd : truncate32 d.cmd ≠ 0) :
    (mhu_last_tx_done st idx = true ↔ readl st.dev (TX_STATUS idx) = 0) ∧
    mhu_last_tx_done (mhu_send_data st idx (some d)).st idx = false ∧
    (∀ st2 : MhuState, readl st2.dev (TX_STATUS idx) = 0 →
      mhu_last_tx_done st2 idx = true) := by
  refine ⟨by simp [mhu_last_tx_done], ?_,
    fun st2 h => by simp [mhu_last_tx_done, readl] at h ⊢; exact h⟩
  have hlor : ∀ x : Nat, (x ||| truncate32 d.cmd) ≠ 0 :=
    fun x => lor_ne_zero_right x _ hcmd
  cases htx : d.tx_buf with
  | none =>
    simp [mhu_send_data, htx, writel_tx_set, mhu_last_tx_done, readl, hlor]
  | some buf =>
    simp [mhu_send_data, htx, writel_tx_set, mhu_last_tx_done, readl, hlor]

/-- Witness for C6 amended: after sending `txd` (command word 5) on the
quiescent state, the poll reports false; on the quiescent state itself
it reports true. -/
theorem last_tx_done_spec_w :
    truncate32 txd.cmd ≠ 0 ∧
    mhu_last_tx_done (mhu_send_data st0 0 (some txd)).st 0 = false ∧
    (mhu_last_tx_done st0 0 = true ↔ readl st0.dev (TX_STATUS 0) = 0) :=
  ⟨by decide,
   (last_tx_done_spec st0 0 txd (by decide)).2.1,
   (last_tx_done_spec st0 0 txd (by decide)).1⟩

theorem rx_status_ne_tx_status (idx : Nat) : RX_STATUS idx ≠ TX_STATUS idx := by
  simp only [TX_STATUS, TX_OFFSET, RX_STATUS, RX_OFFSET]
  omega

theorem send_chanData_at (st : MhuState) (idx : Nat) (d : mhu_data_buf) :
    (mhu_send_data st idx (some d)).st.chanData idx = some d := by
  cases htx : d.tx_buf <;> simp [mhu_send_data, htx]

theorem send_rxIrq (st : MhuState) (idx : Nat) (d : mhu_data_buf) :
    (mhu_send_data st idx (some d)).st.rxIrq = st.rxIrq := by
  cases htx : d.tx_buf <;> simp [mhu_send_data, htx]

theorem send_preserves_rx_status (st : MhuState) (idx : Nat) (d : mhu_data_buf) :
    readl (mhu_send_data st idx (some d)).st.dev (RX_STATUS idx) =
      readl st.dev (RX_STATUS idx) := by
  cases htx : d.tx_buf <;>
    simp [mhu_send_data, htx, writel_tx_set, readl, rx_status_ne_tx_status idx]

/-- C10: Send unconditionally overwrites the channel's `pending_receive`
slot with the sent descriptor, whatever the slot held before, and leaves
the receive status register untouched; a subsequent receive interrupt on
that channel therefore treats the sent descriptor as the armed receive
destination: it copies the receive payload slot into that descriptor's
receive buffer, delivers that descriptor to the client, and empties the
slot. -/
theorem send_arms_pending_receive (st : MhuState) (idx : Nat)
    (d : mhu_data_buf) (buf : Nat → Nat)
    (hbuf : d.rx_buf = some buf)
    (hstatus : readl st.dev (RX_STATUS idx) ≠ 0) :
    (mhu_send_data st idx (some d)).st.chanData idx = some d ∧
    readl (mhu_send_data st idx (some d)).st.dev (RX_STATUS idx) =
      readl st.dev (RX_STATUS idx) ∧
    (mbox_handler (mhu_send_data st idx (some d)).st
        ((mhu_send_data st idx (some d)).st.rxIrq idx) idx).delivered =
      some { d with rx_buf := (some (copyOut buf
        (mhu_send_data st idx (some d)).st.dev.payload (RX_PAYLOAD idx) d.rx_size)) } ∧
    (mbox_handler (mhu_send_data st idx (some d)).st
        ((mhu_send_data st idx (some d)).st.rxIrq idx) idx).st.chanData idx = none := by
  have hst : readl (mhu_send_data st idx (some d)).st.dev (RX_STATUS idx) ≠ 0 := by
    rw [send_preserves_rx_status]; exact hstatus
  have hcd := send_chanData_at st idx d
  refine ⟨hcd, send_preserves_rx_status st idx d, ?_, ?_⟩
  · unfold mbox_handler
    rw [if_pos ⟨hst, rfl⟩, hcd]
    simp [hbuf]
  · unfold mbox_handler
    rw [if_pos ⟨hst, rfl⟩, hcd]
    simp

/-- Witness for C10: sending the receive descriptor `rxd` on the rung
state `stRung` arms channel 0 with it, and the following interrupt
delivers it filled and empties the slot. -/
theorem send_arms_pending_receive_w :
    rxd.rx_buf = some rxdBuf ∧
    readl stRung.dev (RX_STATUS 0) ≠ 0 ∧
    (mhu_send_data stRung 0 (some rxd)).st.chanData 0 = some rxd ∧
    (mbox_handler (mhu_send_data stRung 0 (some rxd)).st
        ((mhu_send_data stRung 0 (some rxd)).st.rxIrq 0) 0).st.chanData 0 = none :=
  ⟨rfl, by decide,
   (send_arms_pending_receive stRung 0 rxd rxdBuf rfl (by decide)).1,
   (send_arms_pending_receive stRung 0 rxd rxdBuf rfl (by decide)).2.2.2⟩

/-- C2 counterexample: the claim says `pending_receive` becomes
occupied only through the client's receive-arm action and becomes empty
only inside the interrupt handler, with no other writer (in particular
not Send).  In the code, `mhu_send_data` itself writes the slot (empty
to occupied with the sent descriptor, here on the quiescent state), and
`mhu_shutdown` empties an occupied slot outside the interrupt handler
(here on the armed state). -/
theorem pending_receive_other_writers :
    st0.chanData 0 = none ∧
    (stepState st0 0 (MhuOp.send (some txd))).chanData 0 = some txd ∧
    stArmed.chanData 0 = some rxd ∧
    (stepState stArmed 0 MhuOp.shutdown).chanData 0 = none :=
  ⟨rfl, rfl, rfl, rfl⟩

/-- C2 amended: single-writer characterisation of `pending_receive`.
Whenever a driver operation on channel `idx` changes the slot, the
operation is either Send with a non-null descriptor (the slot then
holds exactly the sent descriptor: in this driver, Send doubles as the
receive arm), or shutdown (the slot is then empty), or the interrupt
handler delivering with a non-zero receive status on the channel's own
line from an occupied slot (the slot is then empty); moreover an
operation on channel `idx` never writes any other channel's slot. -/
theorem pending_receive_single_writer (st : MhuState) (idx : Nat) (op : MhuOp) :
    ((stepState st idx op).chanData idx ≠ st.chanData idx →
      (∃ d, op = MhuOp.send (some d) ∧
        (stepState st idx op).chanData idx = some d) ∨
      (op = MhuOp.shutdown ∧ (stepState st idx op).chanData idx = none) ∨
      (∃ irq d, op = MhuOp.interrupt irq ∧ st.chanData idx = some d ∧
        readl st.dev (RX_STATUS idx) ≠ 0 ∧ irq = st.rxIrq idx ∧
        (stepState st idx op).chanData idx = none)) ∧
    (∀ j, j ≠ idx → (stepState st idx op).chanData j = st.chanData j) := by
  cases op with
  | send msg =>
    cases msg with
    | none =>
      exact ⟨fun h => absurd rfl h, fun j hj => rfl⟩
    | some d =>
      constructor
      · intro _
        exact Or.inl ⟨d, rfl, send_chanData_at st idx d⟩
      · intro j hj
        cases htx : d.tx_buf <;> simp [stepState, mhu_send_data, htx, hj]
  | interrupt irq =>
    by_cases hc : readl st.dev (RX_STATUS idx) ≠ 0 ∧ irq = st.rxIrq idx
    · cases hd : st.chanData idx with
      | none =>
        have hstep : stepState st idx (MhuOp.interrupt irq) = st := by
          simp only [stepState, mbox_handler]
          rw [if_pos hc, hd]
        rw [hstep]
        exact ⟨fun h => absurd hd h, fun j hj => rfl⟩
      | some d =>
        constructor
        · intro _
          refine Or.inr (Or.inr ⟨irq, d, rfl, rfl, hc.1, hc.2, ?_⟩)
          simp only [stepState, mbox_handler]
          rw [if_pos hc, hd]
          simp
        · intro j hj
          simp only [stepState, mbox_handler]
          rw [if_pos hc, hd]
          simp [hj]
    · have hstep : stepState st idx (MhuOp.interrupt irq) = st := by
        simp only [stepState, mbox_handler]
        rw [if_neg hc]
      rw [hstep]
      exact ⟨fun h => absurd rfl h, fun j hj => rfl⟩
  | startup err =>
    have hstep : ∀ j, (stepState st idx (MhuOp.startup err)).chanData j = st.chanData j := by
      intro j
      by_cases he : err = 0 <;> simp [stepState, mhu_startup, he]
    rw [hstep idx]
    exact ⟨fun h => absurd rfl h, fun j hj => hstep j⟩
  | shutdown =>
    constructor
    · intro _
      exact Or.inr (Or.inl ⟨rfl, by simp [stepState, mhu_shutdown]⟩)
    · intro j hj
      simp [stepState, mhu_shutdown, hj]
  | lastTxDone =>
    exact ⟨fun h => absurd rfl h, fun j hj => rfl⟩

/-- Witness for C2 amended: the Send of `txd` on the quiescent state
changes channel 0's slot; the characterisation reports it as a Send of
`txd`, and channel 1's slot is untouched. -/
theorem pending_receive_single_writer_w :
    (stepState st0 0 (MhuOp.send (some txd))).chanData 0 ≠ st0.chanData 0 ∧
    ((∃ d, MhuOp.send (some txd) = MhuOp.send (some d) ∧
        (stepState st0 0 (MhuOp.send (some txd))).chanData 0 = some d) ∨
     (MhuOp.send (some txd) = MhuOp.shutdown ∧
        (stepState st0 0 (MhuOp.send (some txd))).chanData 0 = none) ∨
     (∃ irq d, MhuOp.send (some txd) = MhuOp.interrupt irq ∧
        st0.chanData 0 = some d ∧ readl st0.dev (RX_STATUS 0) ≠ 0 ∧
        irq = st0.rxIrq 0 ∧
        (stepState st0 0 (MhuOp.send (some txd))).chanData 0 = none)) ∧
    (∀ j, j ≠ 0 → (stepState st0 0 (MhuOp.send (some txd))).chanData j = st0.chanData j) := by
  have hne : (stepState st0 0 (MhuOp.send (some txd))).chanData 0 ≠ st0.chanData 0 := by
    intro h
    have h2 : (some txd : Option mhu_data_buf) = none := h
    exact Option.noConfusion h2
  exact ⟨hne, (pending_receive_single_writer st0 0 (MhuOp.send (some txd))).1 hne,
    (pending_receive_single_writer st0 0 (MhuOp.send (some txd))).2⟩

theorem mbox_handler_obs_congr (s s2 : MhuState) (irq idx : Nat)
    (hdev : s.dev = s2.dev) (hcd : s.chanData idx = s2.chanData idx)
    (hirq : s.rxIrq idx = s2.rxIrq idx) :
    (mbox_handler s irq idx).ret = (mbox_handler s2 irq idx).ret ∧
    (mbox_handler s irq idx).delivered = (mbox_handler s2 irq idx).delivered ∧
    (mbox_handler s irq idx).tr = (mbox_handler s2 irq idx).tr := by
  unfold mbox_handler
  rw [hdev, hcd, hirq]
  split
  · split
    · exact ⟨rfl, rfl, rfl⟩
    · exact ⟨rfl, rfl, rfl⟩
  · exact ⟨rfl, rfl, rfl⟩

theorem send_obs_congr (s s2 : MhuState) (idx : Nat) (msg : Option mhu_data_buf)
    (hdev : s.dev = s2.dev) :
    (mhu_send_data s idx msg).ret = (mhu_send_data s2 idx msg).ret ∧
    (mhu_send_data s idx msg).tr = (mhu_send_data s2 idx msg).tr ∧
    (mhu_send_data s idx msg).st.dev = (mhu_send_data s2 idx msg).st.dev := by
  cases msg with
  | none => exact ⟨rfl, rfl, hdev⟩
  | some d => cases htx : d.tx_buf <;> simp [mhu_send_data, htx, hdev]

theorem cycleObs_congr (s s2 : MhuState) (idx irq : Nat)
    (msg : Option mhu_data_buf)
    (hdev : s.dev = s2.dev) (hcd : s.chanData idx = s2.chanData idx)
    (hirq : s.rxIrq idx = s2.rxIrq idx) :
    cycleObs s idx irq msg = cycleObs s2 idx irq msg := by
  obtain ⟨hr, ht, hd2⟩ := send_obs_congr s s2 idx msg hdev
  have hcd2 : (mhu_send_data s idx msg).st.chanData idx =
      (mhu_send_data s2 idx msg).st.chanData idx := by
    cases msg with
    | none => exact hcd
    | some d => rw [send_chanData_at, send_chanData_at]
  have hirq2 : (mhu_send_data s idx msg).st.rxIrq idx =
      (mhu_send_data s2 idx msg).st.rxIrq idx := by
    cases msg with
    | none => exact hirq
    | some d => rw [send_rxIrq, send_rxIrq]; exact hirq
  obtain ⟨h1, h2, h3⟩ :=
    mbox_handler_obs_congr (mhu_send_data s idx msg).st
      (mhu_send_data s2 idx msg).st irq idx hd2 hcd2 hirq2
  simp [cycleObs, hr, ht, h1, h2, h3]

/-- C9: Stop is void and always succeeds; it discards any pending
receive without copying (its effect trace is only the slot clear and
the irq release) and uninstalls the handler.  After Stop followed by a
successful Start the channel holds no residual `pending_receive`, the
handler is installed again, and a subsequent Send/interrupt cycle
yields, for every message and every firing line, exactly the observable
outcome (return codes, delivered descriptor, effect trace) it would
yield on a freshly constructed controller with that channel started, in
the same hardware environment. -/
theorem stop_start_restores_fresh (st : MhuState) (idx : Nat) :
    (mhu_shutdown st idx).st.chanData idx = none ∧
    (mhu_shutdown st idx).st.irqInstalled idx = false ∧
    (mhu_shutdown st idx).tr =
      [MhuAction.setChanData idx none, MhuAction.freeIrq (st.rxIrq idx)] ∧
    (mhu_startup (mhu_shutdown st idx).st idx 0).ret = 0 ∧
    (mhu_startup (mhu_shutdown st idx).st idx 0).st.chanData idx = none ∧
    (mhu_startup (mhu_shutdown st idx).st idx 0).st.irqInstalled idx = true ∧
    (∀ irq msg,
      cycleObs (mhu_startup (mhu_shutdown st idx).st idx 0).st idx irq msg =
        cycleObs (freshStarted st idx) idx irq msg) := by
  refine ⟨by simp [mhu_shutdown], by simp [mhu_shutdown], rfl,
    by simp [mhu_startup], by simp [mhu_startup, mhu_shutdown],
    by simp [mhu_startup, mhu_shutdown], ?_⟩
  intro irq msg
  refine cycleObs_congr _ _ idx irq msg rfl ?_ rfl
  simp [mhu_startup, mhu_shutdown, freshStarted]

end ArmMhu
